import Mathlib

/-!
Verification of the Mercury baseboard demo design (`baseboard.py`, Amaranth HDL).

Each synchronous component is shallowly embedded as a step function on an
explicit state record.  Signals of width `w` are modelled as `Nat` values kept
below `2^w` by the step functions (`% 2^w` exactly where the hardware
truncates).  Amaranth semantics reproduced here:

* all right-hand sides of `m.d.sync` assignments read the *current* register
  values; the next state commits atomically;
* when several `m.d.sync` assignments to the same signal are active on one
  tick, the assignment that occurs *later* in elaboration order wins (per-bit
  for slice assignments such as `tmp_out[i:i+4].eq(...)`);
* `m.d.comb` signals are pure functions of the current registers, defaulting
  to their reset value when no active statement drives them;
* `a - b` on unsigned signals yields a signed value, so `(cnt - 1) == 0`
  compares without truncation (it holds iff `cnt == 1`), while `cnt.eq(cnt-1)`
  truncates back to the signal width (wrap-around decrement).
-/

namespace Baseboard

/-! ## Binary2Bcd (double-dabble converter, `Binary2Bcd` in baseboard.py) -/

/-- State of `Binary2Bcd`: registers `done` (reset 1), `add_done` (reset 0),
`tmp` (10 bits), `tmp_out` (16 bits), `cnt` (4 bits, reset 10), and the public
output register `dout` (16 bits). -/
structure BcdState where
  done : Bool
  add_done : Bool
  tmp : Nat
  tmp_out : Nat
  cnt : Nat
  dout : Nat
  deriving Repr, DecidableEq

/-- Reset state of `Binary2Bcd`. -/
def bcdReset : BcdState :=
  { done := true, add_done := false, tmp := 0, tmp_out := 0, cnt := 10, dout := 0 }

/-- Nibble `i` (4-bit field) of a packed value, i.e. `x[4*i : 4*i+4]`. -/
def nib (x i : Nat) : Nat := (x / 16 ^ i) % 16

/-- Combinational `add3` signal: some BCD nibble of `tmp_out` is `>= 5`
(the or-reduce of `tmp_out[i:i+4] >= 5` for `i = 0, 4, 8, 12`). -/
def bcdAdd3 (tmp_out : Nat) : Bool :=
  decide (5 ≤ nib tmp_out 0) || decide (5 ≤ nib tmp_out 1) ||
  decide (5 ≤ nib tmp_out 2) || decide (5 ≤ nib tmp_out 3)

/-- The add-3 correction: nibble-wise, any nibble of `old` that is `>= 5` is
replaced by `(nibble + 3) % 16`; the other nibbles keep the value they have in
`base` (the value assigned by an earlier statement on the same tick). -/
def bcdCorrect (base old : Nat) : Nat :=
  (if 5 ≤ nib old 0 then (nib old 0 + 3) % 16 else nib base 0) +
  16 * (if 5 ≤ nib old 1 then (nib old 1 + 3) % 16 else nib base 1) +
  256 * (if 5 ≤ nib old 2 then (nib old 2 + 3) % 16 else nib base 2) +
  4096 * (if 5 ≤ nib old 3 then (nib old 3 + 3) % 16 else nib base 3)

/-- One synchronous tick of `Binary2Bcd`.  Statement order in the source:
first the `If(self.en)` reload, then `If(~done)` (shift step when
`~add3 | add_done`, otherwise the add-3 step), with an `Else` branch (idle)
loading `dout` from `tmp_out`.  Later assignments override earlier ones. -/
def bcdStep (en : Bool) (din : Nat) (s : BcdState) : BcdState :=
  -- effect of the `If(self.en)` block alone
  let done1 := if en then false else s.done
  let tmp1 := if en then din % 1024 else s.tmp
  let tmpOut1 := if en then 0 else s.tmp_out
  let cnt1 := if en then 10 else s.cnt
  let addDone1 := if en then false else s.add_done
  if s.done = false then
    if bcdAdd3 s.tmp_out = false ∨ s.add_done = true then
      -- shift step: these assignments override the `en` reload
      { done := if s.cnt = 1 then true else done1
        add_done := false
        tmp := (2 * s.tmp) % 1024
        tmp_out := (2 * s.tmp_out + s.tmp / 512) % 65536
        cnt := (s.cnt + 15) % 16
        dout := s.dout }
    else
      -- add-3 step: per-nibble override of `tmp_out`, `add_done` set
      { done := done1
        add_done := true
        tmp := tmp1
        tmp_out := bcdCorrect tmpOut1 s.tmp_out
        cnt := cnt1
        dout := s.dout }
  else
    { done := done1
      add_done := addDone1
      tmp := tmp1
      tmp_out := tmpOut1
      cnt := cnt1
      dout := s.tmp_out }

/-- Run `Binary2Bcd` for `k` ticks with `en` deasserted. -/
def bcdRun (k : Nat) (s : BcdState) : BcdState :=
  match k with
  | 0 => s
  | k + 1 => bcdRun k (bcdStep false 0 s)

/-- The packed-BCD decimal expansion of `v`: ones in bits 0-3, tens in 4-7,
hundreds in 8-11, thousands in 12-15. -/
def bcdDigits (v : Nat) : Nat :=
  v % 10 + 16 * (v / 10 % 10) + 256 * (v / 100 % 10) + 4096 * (v / 1000 % 10)

/-! ## Timer (`Timer` in baseboard.py)

`cnt` is `Signal(range(0, N), reset=N)` with `N = int(period * clk_freq)`, so
its width is `w = bits_for(N-1)` and the reset value is `N % 2^w`.  Each tick
`stb <= 0; cnt <= cnt - 1`, overridden when `cnt == 0` by `cnt <= N` and
`stb <= 1`.  We parameterise by `N` and the signal width `w`. -/

/-- State of `Timer`: the down-counter (width `w`) and the strobe register. -/
structure TimerState where
  cnt : Nat
  stb : Bool
  deriving Repr, DecidableEq

/-- Reset state of `Timer` for reload value `N` and counter width `w`. -/
def timerReset (N w : Nat) : TimerState := { cnt := N % 2 ^ w, stb := false }

/-- One synchronous tick of `Timer`. -/
def timerStep (N w : Nat) (s : TimerState) : TimerState :=
  if s.cnt = 0 then { cnt := N % 2 ^ w, stb := true }
  else { cnt := (s.cnt + (2 ^ w - 1)) % 2 ^ w, stb := false }

/-- `Timer` state after `t` ticks from reset. -/
def timerRun (N w : Nat) : Nat → TimerState
  | 0 => timerReset N w
  | t + 1 => timerStep N w (timerRun N w t)

/-! ## Adc2Degrees (`Adc2Degrees` in baseboard.py)

Combinational: `degrees.eq((adc - 82) >> 2)`.  `adc` is unsigned 10-bit,
`adc - 82` is signed, `>> 2` is an arithmetic shift (floor division by 4),
and the `.eq` onto the unsigned 10-bit `degrees` truncates to 10 bits
(two's complement, i.e. `emod 1024`). -/

/-- The `Adc2Degrees` combinational transform on a 10-bit input. -/
def adc2degrees (adc : Nat) : Nat :=
  ((((adc % 1024 : Nat) : Int) - 82).fdiv 4 % 1024).toNat

/-! ## ChannelMux (`BaseboardDemo.elaborate`, the `Switch` on `ch_sel`)

`ch_sel` is a 3-bit signal; `Case(2)` routes `degrees` into `bin2bcd.din`,
`Default()` routes `binary_in`. -/

/-- The channel mux: 3-bit selector, case 2 selects the transformed value,
every other case selects the raw sample. -/
def channelMux (sel raw transformed : Nat) : Nat :=
  if sel % 8 = 2 then transformed else raw

/-! ## SevenSegDriver (`SevenSegDriver` in baseboard.py)

`digit_sel` is a 2-bit register advanced once per refresh strobe.  All
outputs are combinational in `digit_sel` and `din`:
`enable` (4 bits, comb default 15) has bit `digit_sel` driven to 0;
`curr_digit = din[4*digit_sel : 4*digit_sel + 4]`; `dout` is the 16-entry
segment lookup of `curr_digit`. -/

/-- `digit_sel` after one refresh strobe (`digit_sel <= digit_sel + 1`,
2-bit wrap). -/
def ssdNextSel (sel : Nat) : Nat := (sel + 1) % 4

/-- `digit_sel` after `k` refresh strobes starting from `sel`. -/
def ssdSelAfter (sel : Nat) : Nat → Nat
  | 0 => sel
  | k + 1 => ssdNextSel (ssdSelAfter sel k)

/-- The 4-bit digit-enable output: default (reset) value 15, with bit
`i` driven low by the `If(digit_sel == i)` arm that matches. -/
def ssdEnable (sel : Nat) : Nat :=
  (if sel = 0 then 0 else 1) + 2 * (if sel = 1 then 0 else 1) +
  4 * (if sel = 2 then 0 else 1) + 8 * (if sel = 3 then 0 else 1)

/-- The selected digit nibble: `din[4*digit_sel : 4*digit_sel + 4]`. -/
def ssdCurrDigit (din sel : Nat) : Nat := (din >>> (4 * sel)) % 16

/-- The exhaustive 16-entry segment pattern table (the `Switch(curr_digit)`;
the final `0` arm is Amaranth's comb default for `dout`, unreachable since
`curr_digit` is 4 bits wide). -/
def ssdSegTable (d : Nat) : Nat :=
  match d with
  | 0 => 0b11111100
  | 1 => 0b01100000
  | 2 => 0b11011010
  | 3 => 0b11110010
  | 4 => 0b01100110
  | 5 => 0b10110110
  | 6 => 0b10111110
  | 7 => 0b11100000
  | 8 => 0b11111110
  | 9 => 0b11110110
  | 10 => 0b11101110
  | 11 => 0b00111110
  | 12 => 0b10011100
  | 13 => 0b01111010
  | 14 => 0b10011110
  | 15 => 0b10001110
  | _ => 0

/-- The 8-bit segment output during a slot: lookup of the selected nibble. -/
def ssdSegOut (din sel : Nat) : Nat := ssdSegTable (ssdCurrDigit din sel)

/-- Digit-enable line `i` is asserted (driven to its active-low level 0)
during slot `sel`. -/
def ssdLineAsserted (sel i : Nat) : Bool := (ssdEnable sel >>> i) % 2 = 0

/-! ## SPICtrl (`SPICtrl` in baseboard.py), width 24

Registers: the FSM state, the pad registers `clk` and `cs` (driven in the
sync domain), `div` (6 bits, reset 63), `edge_cnt` (6 bits, reset 48),
`tmp` (24 bits), `in_bit`, `sclk_prev`, and `in_prog`.  `in_prog` is
declared with reset 0 and *never assigned anywhere*, so it stays 0; the
combinational `done` is `~in_prog`.  `dout` is combinationally `tmp` and
`copi` is `tmp[-1]`.  The FSM ignores `en` outside `IDLE`. -/

/-- The two FSM states of `SPICtrl`. -/
inductive SpiFsm where
  | IDLE
  | XFER
  deriving Repr, DecidableEq

/-- Registered state of `SPICtrl` (width 24). -/
structure SpiState where
  fsm : SpiFsm
  clk : Bool
  cs : Bool
  div : Nat
  edge_cnt : Nat
  tmp : Nat
  in_bit : Bool
  sclk_prev : Bool
  in_prog : Bool
  deriving Repr, DecidableEq

/-- Reset state of `SPICtrl`. -/
def spiReset : SpiState :=
  { fsm := .IDLE, clk := false, cs := false, div := 63, edge_cnt := 48,
    tmp := 0, in_bit := false, sclk_prev := false, in_prog := false }

/-- Combinational `done` output: `~in_prog`. -/
def spiDone (s : SpiState) : Bool := !s.in_prog

/-- Combinational `dout` output: `tmp`. -/
def spiDout (s : SpiState) : Nat := s.tmp

/-- One synchronous tick of `SPICtrl` with inputs `en`, `din` and the
serial input line `cipo`.  The `FSM` block elaborates first, then the
`If(sclk_nedge)` shift-in and `If(sclk_pedge)` capture override it. -/
def spiStep (en : Bool) (din : Nat) (cipo : Bool) (s : SpiState) : SpiState :=
  let sclk_pedge := s.clk && !s.sclk_prev
  let sclk_nedge := !s.clk && s.sclk_prev
  let afterFsm : SpiState :=
    match s.fsm with
    | .IDLE =>
        if en then
          { s with
            clk := false
            cs := true
            div := 63
            edge_cnt := 48 % 64
            tmp := din % 2 ^ 24
            fsm := .XFER }
        else
          { s with clk := false, cs := false, div := 63, edge_cnt := 48 % 64 }
    | .XFER =>
        let s1 := { s with div := (s.div + 63) % 64 }
        let s2 := if s.div = 0 then
            { s1 with edge_cnt := (s.edge_cnt + 63) % 64, clk := !s.clk }
          else s1
        if s.edge_cnt = 0 then { s2 with fsm := .IDLE } else s2
  let afterNedge :=
    if sclk_nedge then { afterFsm with tmp := (2 * s.tmp + cond s.in_bit 1 0) % 2 ^ 24 }
    else afterFsm
  let afterPedge :=
    if sclk_pedge then { afterNedge with in_bit := cipo } else afterNedge
  { afterPedge with sclk_prev := s.clk }

/-! ## Debounce (`Debounce` in baseboard.py)

Registers: `last_state` and the 16-bit run-length counter `cnt`.  The
synchronised button input `button_sync` is treated as the external input of
the step function.  Combinational outputs as written in the source (note the
Python precedence of `&` over `==`):
`out = last_state`,
`down_stb = ((cnt == 65535) & last_state) == 1`,
`up_stb   = ((cnt == 65535) & last_state) == 0`. -/

/-- Registered state of `Debounce`. -/
structure DebounceState where
  last_state : Bool
  cnt : Nat
  deriving Repr, DecidableEq

/-- Reset state of `Debounce`. -/
def debounceReset : DebounceState := { last_state := false, cnt := 0 }

/-- Combinational `down_stb`: `((cnt == 65535) & last_state) == 1`. -/
def debounceDownStb (s : DebounceState) : Bool :=
  decide (s.cnt = 65535) && s.last_state

/-- Combinational `up_stb`: `((cnt == 65535) & last_state) == 0`. -/
def debounceUpStb (s : DebounceState) : Bool :=
  !(decide (s.cnt = 65535) && s.last_state)

/-- One synchronous tick of `Debounce` with synchronised input
`button_sync`: `cnt <= 0`, overridden while the input differs from
`last_state` by `cnt <= cnt + 1` (16-bit wrap), with `last_state` flipping
when `cnt == 65535`. -/
def debounceStep (button_sync : Bool) (s : DebounceState) : DebounceState :=
  if button_sync ≠ s.last_state then
    { last_state := if s.cnt = 65535 then !s.last_state else s.last_state
      cnt := (s.cnt + 1) % 65536 }
  else
    { last_state := s.last_state, cnt := 0 }

end Baseboard

namespace Baseboard

set_option maxRecDepth 1000000
set_option maxHeartbeats 4000000

/-! ## Helper lemmas -/

/-- Bounded characterisation of the ADC transform: on `82 ≤ a < 1024` the
signed subtract / arithmetic shift / truncation pipeline is plain natural
floor division of `a - 82` by 4. -/
theorem adc2degrees_eq_of_ge (a : Nat) (ha : a < 1024) (ha' : 82 ≤ a) :
    adc2degrees a = (a - 82) / 4 := by
  revert ha'
  revert a ha
  decide

/-- Successor of a modulus-bounded counter position: incrementing `t` either
wraps the residue to 0 (when it was at the top) or increments it. -/
theorem mod_succ_step (t m : Nat) (hm : 0 < m) :
    (t + 1) % (m + 1) = if t % (m + 1) = m then 0 else t % (m + 1) + 1 := by
  have h1 : 1 % (m + 1) = 1 := Nat.mod_eq_of_lt (by omega)
  have ht : t % (m + 1) < m + 1 := Nat.mod_lt _ (by omega)
  rw [Nat.add_mod, h1]
  split_ifs with h
  · rw [h]
    simp
  · exact Nat.mod_eq_of_lt (by omega)

/-- Counter characterisation for `Timer`: provided the reload value `N` is
positive and representable in the counter width `w`, after `t` ticks the
down-counter holds `N - t % (N + 1)`. -/
theorem timer_cnt_char (N w : Nat) (h1 : 0 < N) (h2 : N < 2 ^ w) (t : Nat) :
    (timerRun N w t).cnt = N - t % (N + 1) := by
  induction t with
  | zero => simp [timerRun, timerReset, Nat.mod_eq_of_lt h2]
  | succ t ih =>
    have hmod : t % (N + 1) < N + 1 := Nat.mod_lt _ (by omega)
    have hkey := mod_succ_step t N h1
    rw [timerRun]
    unfold timerStep
    split_ifs with hc
    · have htop : t % (N + 1) = N := by omega
      have hkey0 : (t + 1) % (N + 1) = 0 := by rw [hkey, if_pos htop]
      show N % 2 ^ w = N - (t + 1) % (N + 1)
      rw [hkey0, Nat.mod_eq_of_lt h2, Nat.sub_zero]
    · have hne : t % (N + 1) ≠ N := by omega
      have hkey1 : (t + 1) % (N + 1) = t % (N + 1) + 1 := by rw [hkey, if_neg hne]
      show ((timerRun N w t).cnt + (2 ^ w - 1)) % 2 ^ w = N - (t + 1) % (N + 1)
      rw [hkey1, ih]
      have hsub : N - t % (N + 1) + (2 ^ w - 1) = N - (t % (N + 1) + 1) + 2 ^ w := by
        omega
      rw [hsub, Nat.add_mod_right]
      exact Nat.mod_eq_of_lt (by omega)

/-- The selected digit nibble equals the arithmetic digit extraction. -/
theorem ssdCurrDigit_eq (din sel : Nat) :
    ssdCurrDigit din sel = din / 16 ^ sel % 16 := by
  unfold ssdCurrDigit
  rw [Nat.shiftRight_eq_div_pow, pow_mul]
  norm_num

/-! ## Claim theorems -/

/-- C1: for every input value `v` with `0 ≤ v < 1024`, if `Binary2Bcd` is
enabled with `din = v` and then stepped with `en` deasserted, the conversion
terminates (`done` is true within 30 ticks and stays true) and the 16-bit
output register `dout` holds the four packed 4-bit decimal digits of `v`. -/
theorem binary2bcd_converts : ∀ v : Nat, v < 1024 →
    (bcdRun 30 (bcdStep true v bcdReset)).done = true ∧
    (bcdRun 30 (bcdStep true v bcdReset)).dout = bcdDigits v := by
  decide

/-- Witness for C1 at `v = 1023` (digits 1, 0, 2, 3). -/
theorem binary2bcd_converts_witness :
    1023 < 1024 ∧
    ((bcdRun 30 (bcdStep true 1023 bcdReset)).done = true ∧
     (bcdRun 30 (bcdStep true 1023 bcdReset)).dout = bcdDigits 1023) :=
  ⟨by decide, binary2bcd_converts 1023 (by decide)⟩

/-- C2: the claim that `done == !busy` fails on the code: `in_prog` is
declared with reset 0 but never assigned, so `done = ~in_prog` is constantly
true — the step function never changes `in_prog`, it is false at reset, and
one tick after an `en` request the FSM is mid-transfer (`XFER`) while `done`
still reads true. -/
theorem spictrl_done_always_true :
    (∀ (en : Bool) (din : Nat) (cipo : Bool) (s : SpiState),
      (spiStep en din cipo s).in_prog = s.in_prog) ∧
    spiReset.in_prog = false ∧
    (spiStep true 0 false spiReset).fsm = SpiFsm.XFER ∧
    spiDone (spiStep true 0 false spiReset) = true := by
  refine ⟨?_, rfl, by decide, by decide⟩
  intro en din cipo s
  unfold spiStep
  cases s with
  | mk fsm clk cs div edge_cnt tmp in_bit sclk_prev in_prog =>
    cases fsm <;> dsimp only <;> split_ifs <;> rfl

/-- C3: the claim that no `up_stb`/`down_stb` pulse fires without a sustained
input change fails on the code: by Python operator precedence
`(cnt == 65535) & last_state == 0` is `((cnt == 65535) & last_state) == 0`,
so `up_stb` is asserted at reset (no input change at all) and throughout a
single-tick glitch, while the stable output never flips. -/
theorem debounce_up_stb_spurious :
    debounceUpStb debounceReset = true ∧
    (debounceStep true debounceReset).last_state = false ∧
    debounceUpStb (debounceStep true debounceReset) = true ∧
    debounceUpStb (debounceStep false (debounceStep true debounceReset)) = true := by
  decide

/-- C4 counterexample: the transform is not monotone over all 10-bit inputs —
`transform(81) = 1023 > 0 = transform(82)` although `81 ≤ 82` (inputs below
the offset wrap through the signed shift and 10-bit truncation). -/
theorem adc2degrees_not_monotone :
    81 ≤ 82 ∧ ¬ (adc2degrees 81 ≤ adc2degrees 82) := by
  decide

/-- C4 (amended): `transform(82) = 0`, and the transform is monotone
non-decreasing on inputs at or above the offset: for `82 ≤ a ≤ b < 1024`,
`transform(a) ≤ transform(b)`. -/
theorem adc2degrees_monotone_from_82 (a b : Nat)
    (ha : 82 ≤ a) (hab : a ≤ b) (hb : b < 1024) :
    adc2degrees 82 = 0 ∧ adc2degrees a ≤ adc2degrees b := by
  refine ⟨by decide, ?_⟩
  rw [adc2degrees_eq_of_ge a (by omega) ha,
    adc2degrees_eq_of_ge b hb (by omega)]
  exact Nat.div_le_div_right (Nat.sub_le_sub_right hab 82)

/-- Witness for C4 (amended) at `a = 82`, `b = 100`. -/
theorem adc2degrees_monotone_from_82_witness :
    (82 ≤ 82 ∧ 82 ≤ 100 ∧ 100 < 1024) ∧
    (adc2degrees 82 = 0 ∧ adc2degrees 82 ≤ adc2degrees 100) :=
  ⟨⟨by decide, by decide, by decide⟩,
    adc2degrees_monotone_from_82 82 100 (by decide) (by decide) (by decide)⟩

/-- C5 counterexample: with reload value `N = 5` (counter width 3), the
strobe fires at ticks 6 and 12 and at none of the ticks 7..11 in between —
the strobe period is `N + 1 = 6` reference ticks, not `N = 5` as claimed. -/
theorem timer_period_off_by_one :
    (timerRun 5 3 6).stb = true ∧ (timerRun 5 3 12).stb = true ∧
    ((List.range 5).all fun d => !(timerRun 5 3 (7 + d)).stb) = true := by
  decide

/-- C5 (amended): configured with reload value `N = int(period * tick_rate)`
(positive and representable in the counter width `w`), the timer emits
`stb = true` exactly once every `N + 1` reference ticks — at tick `t` the
strobe is true iff `t` is a positive multiple of `N + 1`. -/
theorem timer_stb_every_n_plus_one (N w t : Nat) (h1 : 0 < N) (h2 : N < 2 ^ w) :
    (timerRun N w t).stb = true ↔ (0 < t ∧ t % (N + 1) = 0) := by
  cases t with
  | zero => simp [timerRun, timerReset]
  | succ t =>
    have hmod : t % (N + 1) < N + 1 := Nat.mod_lt _ (by omega)
    have hkey := mod_succ_step t N h1
    have hcnt := timer_cnt_char N w h1 h2 t
    rw [timerRun]
    unfold timerStep
    split_ifs with hc
    · have htop : t % (N + 1) = N := by omega
      have hkey0 : (t + 1) % (N + 1) = 0 := by rw [hkey, if_pos htop]
      simp [hkey0]
    · have hne : t % (N + 1) ≠ N := by omega
      have hkey1 : (t + 1) % (N + 1) = t % (N + 1) + 1 := by rw [hkey, if_neg hne]
      simp [hkey1]

/-- Witness for C5 (amended) at `N = 5`, `w = 3`, `t = 12`. -/
theorem timer_stb_every_n_plus_one_witness :
    (0 < 5 ∧ 5 < 2 ^ 3) ∧
    ((timerRun 5 3 12).stb = true ↔ (0 < 12 ∧ 12 % (5 + 1) = 0)) :=
  ⟨⟨by decide, by decide⟩, timer_stb_every_n_plus_one 5 3 12 (by decide) (by decide)⟩

/-- C6: for every 16-bit packed input and every starting slot, over any 4
consecutive refresh strobes each of the 4 digit-enable lines is driven to its
active (low) level exactly once, and during each slot the 8-bit segment
output equals the 16-entry lookup-table pattern for that slot's 4-bit digit
nibble of the input. -/
theorem sevenseg_scan (s : Nat) (hs : s < 4) :
    (∀ i : Nat, i < 4 →
      ((List.range 4).filter fun k => ssdLineAsserted (ssdSelAfter s k) i).length = 1) ∧
    ∀ din k : Nat, k < 4 →
      ssdSegOut din (ssdSelAfter s k) = ssdSegTable (din / 16 ^ ssdSelAfter s k % 16) := by
  constructor
  · revert s hs
    decide
  · intro din k _
    unfold ssdSegOut
    rw [ssdCurrDigit_eq]

/-- Witness for C6 at starting slot 0, input `0x1023`, line 1, slot 1. -/
theorem sevenseg_scan_witness :
    0 < 4 ∧
    (((List.range 4).filter fun k => ssdLineAsserted (ssdSelAfter 0 k) 1).length = 1 ∧
      ssdSegOut 4131 (ssdSelAfter 0 1) = ssdSegTable (4131 / 16 ^ ssdSelAfter 0 1 % 16)) :=
  ⟨by decide,
    ⟨(sevenseg_scan 0 (by decide)).1 1 (by decide),
     (sevenseg_scan 0 (by decide)).2 4131 1 (by decide)⟩⟩

/-- C7: the claim that asserting `enable` on a busy `Binary2Bcd` cleanly
restarts the conversion from the new input fails on the code: the
`If(~done)` shift-step assignments elaborate after the `If(en)` reload and
override it, so a retrigger with `din = 0` one tick into a conversion of
1023 is ignored — the converter runs to completion and outputs `0x1023`
(the digits of the old input 1023), not the digits of 0. -/
theorem binary2bcd_retrigger_not_clean_restart :
    (bcdRun 30 (bcdStep true 0 (bcdStep true 1023 bcdReset))).done = true ∧
    (bcdRun 30 (bcdStep true 0 (bcdStep true 1023 bcdReset))).dout = bcdDigits 1023 ∧
    bcdDigits 1023 ≠ bcdDigits 0 := by
  decide

/-- C8: while `SPICtrl` is mid-transfer (FSM state `XFER`), asserting `en`
has no effect at all: the next state is identical to the one reached with
`en` low, whatever value `din` carries. -/
theorem spictrl_en_ignored_while_busy (s : SpiState) (din din2 : Nat)
    (cipo : Bool) (h : s.fsm = SpiFsm.XFER) :
    spiStep true din cipo s = spiStep false din2 cipo s := by
  cases s with
  | mk fsm clk cs div edge_cnt tmp in_bit sclk_prev in_prog =>
    cases h
    rfl

/-- Witness for C8 on a concrete mid-transfer state. -/
theorem spictrl_en_ignored_while_busy_witness :
    (spiStep true 5 true (spiStep true 9 true spiReset) =
      spiStep false 7 true (spiStep true 9 true spiReset)) :=
  spictrl_en_ignored_while_busy (spiStep true 9 true spiReset) 5 7 true (by decide)

/-- C9: the channel mux is a pure selection — for every 3-bit selector value,
selector 2 routes the transformed value to the converter input and every
other selector value routes the raw sample. -/
theorem channelMux_selects (sel raw t : Nat) (hsel : sel < 8) :
    (sel = 2 → channelMux sel raw t = t) ∧
    (sel ≠ 2 → channelMux sel raw t = raw) := by
  unfold channelMux
  rw [Nat.mod_eq_of_lt hsel]
  constructor <;> intro h <;> simp [h]

/-- Witness for C9 at `sel = 2` with raw 5 and transformed 7. -/
theorem channelMux_selects_witness :
    2 < 8 ∧
    ((2 = 2 → channelMux 2 5 7 = 7) ∧ (2 ≠ 2 → channelMux 2 5 7 = 5)) :=
  ⟨by decide, channelMux_selects 2 5 7 (by decide)⟩

/-- C10: while `Binary2Bcd` is busy (`done` low) the public output register
`dout` is never written — it keeps its previous value on every tick of the
conversion — and it is (re)loaded from the internal accumulator `tmp_out`
exactly on the ticks on which the converter is idle (`done` high). -/
theorem binary2bcd_dout_frame (en : Bool) (din : Nat) (s : BcdState) :
    (s.done = false → (bcdStep en din s).dout = s.dout) ∧
    (s.done = true → (bcdStep en din s).dout = s.tmp_out) := by
  constructor <;> intro h <;> simp [bcdStep, h] <;> split <;> rfl

/-- Witness for C10 on a concrete busy state (one tick into converting 3)
and on the reset (idle) state. -/
theorem binary2bcd_dout_frame_witness :
    ((bcdStep true 3 bcdReset).done = false ∧
      (bcdStep false 0 (bcdStep true 3 bcdReset)).dout = (bcdStep true 3 bcdReset).dout) ∧
    (bcdReset.done = true ∧ (bcdStep false 0 bcdReset).dout = bcdReset.tmp_out) :=
  ⟨⟨by decide, (binary2bcd_dout_frame false 0 (bcdStep true 3 bcdReset)).1 (by decide)⟩,
   ⟨by decide, (binary2bcd_dout_frame false 0 bcdReset).2 (by decide)⟩⟩

end Baseboard
